import Mathlib

set_option linter.unusedVariables false

/-!
Shallow embedding of the resilient SQL-execution layer of `dm/loader/db.go`
(tiflow DM loader): the `DBConn` connection wrapper, its `querySQL` /
`executeSQL` retry paths, connection reset, and pool construction
(`createConns`).  External collaborators that live outside this file's
source (the generic retry driver `ApplyRetryStrategy` from `dm/pkg/retry` /
`dm/pkg/conn`, the error classifiers `retry.IsConnectionError` and
`dbutil.IsRetryableError`, and the `BaseDB` handle operations) are modelled
from the specification and marked as such.  Side effects (underlying driver
calls, metric emissions, resets, inter-attempt delays) are recorded in an
explicit event trace; durations are measured in whole seconds.
-/

/-- Error scope tags, mirroring `terror.ErrScope` (`ScopeNotSet`,
`ScopeDownstream`, ...) used by `terror.WithScope`. -/
inductive ErrScope where
  | NotSet
  | Upstream
  | Downstream
deriving DecidableEq

/-- Errors flowing through the loader DB layer.  `connLost`, `retryable` and
`fatal` are abstract driver errors distinguished only by how the classifiers
treat them (tags give them identity); `invalidConn` models
`terror.ErrDBUnExpect.Generate(msg)`; `resetFail` is a convenient shape for
errors produced by a failing recovery capability; `mysqlError` models
`*mysql.MySQLError` with its numeric code; `withScope` models
`terror.WithScope`; `fatalLog` models a process-aborting `ctx.L().Fatal`. -/
inductive Err where
  | connLost (tag : Nat)
  | retryable (tag : Nat)
  | fatal (tag : Nat)
  | invalidConn (msg : String)
  | resetFail (tag : Nat)
  | mysqlError (number : Nat) (message : String)
  | withScope (scope : ErrScope) (e : Err)
  | fatalLog (msg : String)
deriving DecidableEq

/-- Modelled from the spec: `retry.IsConnectionError` (`dm/pkg/retry`, not
under src/) recognizes transport/driver-level connection failures
("ConnectionLost: reset by peer, broken pipe, bad connection"). -/
def isConnectionError : Err → Bool
  | .connLost _ => true
  | _ => false

/-- Modelled from the spec: `dbutil.IsRetryableError` (TiDB util, not under
src/) recognizes dialect-specific transient conditions
("RetryableStatementError: lock-wait timeout 1205, deadlock victim 1213"). -/
def isRetryableError : Err → Bool
  | .retryable _ => true
  | .mysqlError n _ => n == 1205 || n == 1213
  | _ => false

/-- Modelled from the spec: `conn.IsMySQLError(err, code)` — the error is a
MySQL error carrying exactly the given code. -/
def IsMySQLError (e : Err) (code : Nat) : Bool :=
  match e with
  | .mysqlError n _ => n == code
  | _ => false

/-- `isErrDBExists` from db.go: MySQL error 1007 (`ErrDBCreateExists`). -/
def isErrDBExists (e : Err) : Bool := IsMySQLError e 1007

/-- `isErrTableExists` from db.go: MySQL error 1050 (`ErrTableExists`). -/
def isErrTableExists (e : Err) : Bool := IsMySQLError e 1050

/-- `isErrDupEntry` from db.go: MySQL error 1062 (`ErrDupEntry`). -/
def isErrDupEntry (e : Err) : Bool := IsMySQLError e 1062

/-- An underlying database handle (`*conn.BaseConn`), opaque except for
identity. -/
structure BaseConn where
  id : Nat
deriving DecidableEq

/-- The shared base database handle (`*conn.BaseDB`), opaque except for
identity. -/
structure BaseDB where
  id : Nat
deriving DecidableEq

/-- `DBConn` from db.go: a live DB connection with metric/log labels, an
optional underlying handle (`nil` modelled as `none`) and the pool-supplied
recovery capability `resetBaseConnFn` (generate a new `BaseConn`, closing
the old one). -/
structure DBConn where
  name : String
  sourceID : String
  baseConn : Option BaseConn
  resetBaseConnFn : Option BaseConn → Except Err BaseConn

/-- `DBConn.Scope` from db.go: `ScopeNotSet` on a nil connection or handle;
here the handle's scope is left abstract, so only the nil branch is modelled
faithfully and a set handle reports `Downstream` (the loader's target). -/
def DBConn.Scope (conn : Option DBConn) : ErrScope :=
  match conn with
  | none => .NotSet
  | some c => match c.baseConn with
    | none => .NotSet
    | some _ => .Downstream

/-- `resetConn` from db.go: invoke the recovery capability on the current
handle; on failure return the error unchanged (the connection is left
untouched), on success swap the new handle in. -/
def resetConn (conn : DBConn) : Except Err Unit × DBConn :=
  match conn.resetBaseConnFn conn.baseConn with
  | .error e => (.error e, conn)
  | .ok bc => (.ok (), { conn with baseConn := some bc })

/-- Observable side effects of one `querySQL` / `executeSQL` run, in program
order: an underlying driver call, an execution-error counter increment
(`tidbExecutionErrorCounter.WithLabelValues(name, sourceID).Inc()`), the
classification of a failed attempt's error, a recovery (`resetConn`) call, a
query-latency histogram observation
(`queryHistogram.WithLabelValues(name, sourceID).Observe(...)`), and an
inter-attempt backoff delay in seconds. -/
inductive Event where
  | dbCall
  | execErrIncr (name sourceID : String)
  | classify (e : Err)
  | resetCall
  | histObserve (name sourceID : String)
  | delay (seconds : Nat)
deriving DecidableEq

/-- State threaded through one retried operation: the live `DBConn` (mutable
only through `resetConn`), the number of underlying driver calls made so far
(used to index the driver oracle), and the event trace. -/
structure LoaderState where
  conn : DBConn
  calls : Nat
  trace : List Event

/-- Final observable outcome of a `querySQL` / `executeSQL` call: result,
number of underlying driver calls, event trace, and the final connection
value (`none` when the receiver itself was nil). -/
structure RunOut (α : Type) where
  res : Except Err α
  calls : Nat
  trace : List Event
  conn : Option DBConn

/-- Modelled from the spec: the backoff shapes of `dm/pkg/retry` (not under
src/) — `Stable` (constant inter-attempt delay) or `LinearIncrease` (delay
grows proportionally with the attempt index). -/
inductive Backoff where
  | Stable
  | LinearIncrease
deriving DecidableEq

/-- `retry.Params` as used by db.go: retry budget, first delay (seconds),
backoff shape, and the stateful retry decision `IsRetryableFn(retryTime,
err)` (stateful because db.go's closures increment metrics and reset the
connection inside it). -/
structure RetryParams where
  retryCount : Nat
  firstRetryDuration : Nat
  backoffStrategy : Backoff
  isRetryableFn : Nat → Err → LoaderState → Bool × LoaderState

/-- Modelled from the spec: the inter-attempt delay before retrying after
attempt `i` — constant for `Stable`, proportional to the attempt index for
`LinearIncrease`. -/
def backoffDuration (strategy : Backoff) (firstDelay : Nat) (i : Nat) : Nat :=
  match strategy with
  | .Stable => firstDelay
  | .LinearIncrease => (i + 1) * firstDelay

/-- Modelled from the spec: the finite retry loop behind
`BaseConn.ApplyRetryStrategy` (`dm/pkg/conn` / `dm/pkg/retry`, not under
src/).  Attempt `i` runs the operation; on success it stops; on failure it
asks `isRetryableFn`; a `true` answer with remaining budget waits the
backoff delay and retries, otherwise the loop stops and the operation's own
last observed error is returned (the spec: "the operation fails after
exactly maxAttempts attempts, returning the last observed error").  The
fuel-0 branch is unreachable for the positive budgets used by db.go. -/
def retryLoop {α : Type} (params : RetryParams)
    (op : LoaderState → Except Err α × LoaderState) :
    Nat → Nat → LoaderState → Except Err α × Nat × LoaderState
  | i, 0, st => (.error (.invalidConn "no retry budget"), i, st)
  | i, Nat.succ fuel, st =>
    match op st with
    | (.ok a, st1) => (.ok a, i, st1)
    | (.error e, st1) =>
      match params.isRetryableFn i e st1 with
      | (false, st2) => (.error e, i, st2)
      | (true, st2) =>
        if fuel = 0 then (.error e, i, st2)
        else
          retryLoop params op (i + 1) fuel
            { st2 with trace := st2.trace ++
                [.delay (backoffDuration params.backoffStrategy params.firstRetryDuration i)] }

/-- Modelled from the spec: `conn.BaseConn.ApplyRetryStrategy` — run the
operation under the finite retry loop with the full budget. -/
def ApplyRetryStrategy {α : Type} (params : RetryParams)
    (op : LoaderState → Except Err α × LoaderState) (st : LoaderState) :
    Except Err α × Nat × LoaderState :=
  retryLoop params op 0 params.retryCount st

/-- Modelled from the spec: the outcome of one underlying
`BaseConn.QuerySQL` driver call (oracle) — a driver error, a row set whose
deferred `rows.Err()` is non-nil, or a clean row set (rows carry an abstract
identity). -/
inductive QueryOutcome where
  | fail (e : Err)
  | rowsErr (rows : Nat) (e : Err)
  | ok (rows : Nat)
deriving DecidableEq

/-- The per-attempt operation of `querySQL` (the closure passed to
`ApplyRetryStrategy` in db.go): call `BaseConn.QuerySQL`; if the driver call
succeeded but the row set carries a deferred error, return the rows together
with that error (a failed attempt); on a clean success observe the
query-latency histogram labeled by (name, sourceID). -/
def queryAttempt (env : Nat → QueryOutcome) (st : LoaderState) :
    Except Err Nat × LoaderState :=
  let k := st.calls
  let st1 : LoaderState :=
    { st with calls := k + 1, trace := st.trace ++ [.dbCall] }
  match env k with
  | .fail e => (.error e, st1)
  | .rowsErr _rows e => (.error e, st1)
  | .ok rows =>
    (.ok rows,
      { st1 with trace := st1.trace ++ [.histObserve st1.conn.name st1.conn.sourceID] })

/-- The `IsRetryableFn` closure of `querySQL` in db.go: a connection error
triggers `resetConn` — reset failure answers false (the reset error is only
logged), reset success answers true; a retryable statement error answers
true after a warning log; anything else answers false. -/
def queryIsRetryable (retryTime : Nat) (e : Err) (st : LoaderState) :
    Bool × LoaderState :=
  let st1 : LoaderState := { st with trace := st.trace ++ [.classify e] }
  if isConnectionError e then
    match resetConn st1.conn with
    | (.error _re, c') =>
      (false, { st1 with conn := c', trace := st1.trace ++ [.resetCall] })
    | (.ok _, c') =>
      (true, { st1 with conn := c', trace := st1.trace ++ [.resetCall] })
  else if isRetryableError e then
    (true, st1)
  else
    (false, st1)

/-- The retry parameters of `querySQL` in db.go: `RetryCount: 10`,
`FirstRetryDuration: time.Second`, `BackoffStrategy: retry.Stable`. -/
def querySQLParams : RetryParams :=
  { retryCount := 10
    firstRetryDuration := 1
    backoffStrategy := .Stable
    isRetryableFn := queryIsRetryable }

/-- `querySQL` from db.go: fail fast with `terror.ErrDBUnExpect` on a nil
receiver or nil underlying handle (zero driver calls), otherwise run the
query attempt under the retry strategy. -/
def querySQL (env : Nat → QueryOutcome) (conn : Option DBConn)
    (query : String) : RunOut Nat :=
  match conn with
  | none => ⟨.error (.invalidConn "database connection not valid"), 0, [], none⟩
  | some c =>
    match c.baseConn with
    | none => ⟨.error (.invalidConn "database connection not valid"), 0, [], some c⟩
    | some _ =>
      let r := ApplyRetryStrategy querySQLParams (queryAttempt env) ⟨c, 0, []⟩
      ⟨r.1, r.2.2.calls, r.2.2.trace, some r.2.2.conn⟩

/-- Decimal digit-string accumulator for `parseUint16`. -/
def parseDecAux : List Char → Nat → Option Nat
  | [], acc => some acc
  | c :: rest, acc =>
    if c.isDigit then parseDecAux rest (acc * 10 + (c.toNat - 48)) else none

/-- Models Go `strconv.ParseUint(val, 10, 16)` as used by the failpoint
block in db.go: a nonempty all-digit decimal string below `2^16`. -/
def parseUint16 (s : String) : Option Nat :=
  match s.toList with
  | [] => none
  | cs =>
    match parseDecAux cs 0 with
    | none => none
    | some n => if n < 65536 then some n else none

/-- Character-list prefix test (building block for `strContains`). -/
def hasPrefixChars : List Char → List Char → Bool
  | [], _ => true
  | _ :: _, [] => false
  | a :: as, b :: bs => a == b && hasPrefixChars as bs

/-- Character-list substring test (building block for `strContains`). -/
def hasInfixChars (pat : List Char) : List Char → Bool
  | [] => hasPrefixChars pat []
  | c :: rest => hasPrefixChars pat (c :: rest) || hasInfixChars pat rest

/-- Models Go `strings.Contains(s, pat)`. -/
def strContains (s pat : String) : Bool :=
  hasInfixChars pat.toList s.toList

/-- The failpoint's batch condition in db.go:
`len(queries) == 1 && strings.Contains(queries[0], "CREATE TABLE")`. -/
def singleCreateTable (queries : List String) : Bool :=
  match queries with
  | [q] => strContains q "CREATE TABLE"
  | _ => false

/-- The `failpoint.Inject("LoadExecCreateTableFailed", ...)` block of
`executeSQL` in db.go, applied to the attempt's error-so-far.  `armed` is
the failpoint value (`none` when the failpoint is not armed).  When armed:
an unparsable value hits `ctx.L().Fatal` (modelled as `none`, the process
aborts); with a parsed code, a single-statement batch containing
"CREATE TABLE" has its error replaced by a synthetic MySQL error carrying
exactly that code, and any other batch is left unaffected. -/
def applyCreateTableFailpoint (armed : Option String) (queries : List String)
    (err : Option Err) : Option (Option Err) :=
  match armed with
  | none => some err
  | some val =>
    match parseUint16 val with
    | none => none
    | some code =>
      if singleCreateTable queries then some (some (.mysqlError code ""))
      else some err

/-- The per-attempt operation of `executeSQL` (the closure passed to
`ApplyRetryStrategy` in db.go): call `BaseConn.ExecuteSQL` (oracle `env`
gives the k-th call's error, `none` meaning success), then run the
fault-injection block on the resulting error. -/
def execAttempt (env : Nat → Option Err) (armed : Option String)
    (queries : List String) (st : LoaderState) :
    Except Err Unit × LoaderState :=
  let k := st.calls
  let st1 : LoaderState :=
    { st with calls := k + 1, trace := st.trace ++ [.dbCall] }
  match applyCreateTableFailpoint armed queries (env k) with
  | none => (.error (.fatalLog "failpoint LoadExecCreateTableFailed value invalid"), st1)
  | some none => (.ok (), st1)
  | some (some e) => (.error e, st1)

/-- The `IsRetryableFn` closure of `executeSQL` in db.go: first increment
the execution-error counter labeled by (name, sourceID), then classify as
in `querySQL`'s closure. -/
def execIsRetryable (retryTime : Nat) (e : Err) (st : LoaderState) :
    Bool × LoaderState :=
  let st0 : LoaderState :=
    { st with trace := st.trace ++ [.execErrIncr st.conn.name st.conn.sourceID] }
  let st1 : LoaderState := { st0 with trace := st0.trace ++ [.classify e] }
  if isConnectionError e then
    match resetConn st1.conn with
    | (.error _re, c') =>
      (false, { st1 with conn := c', trace := st1.trace ++ [.resetCall] })
    | (.ok _, c') =>
      (true, { st1 with conn := c', trace := st1.trace ++ [.resetCall] })
  else if isRetryableError e then
    (true, st1)
  else
    (false, st1)

/-- The retry parameters of `executeSQL` in db.go: `RetryCount: 10`,
`FirstRetryDuration: 2 * time.Second`,
`BackoffStrategy: retry.LinearIncrease`. -/
def executeSQLParams : RetryParams :=
  { retryCount := 10
    firstRetryDuration := 2
    backoffStrategy := .LinearIncrease
    isRetryableFn := execIsRetryable }

/-- `executeSQL` from db.go: an empty statement list succeeds immediately
(before any validity check); a nil receiver or nil underlying handle fails
with `terror.ErrDBUnExpect` and zero driver calls; otherwise the batch runs
under the retry strategy and the terminal error (if any) is returned
unchanged. -/
def executeSQL (env : Nat → Option Err) (armed : Option String)
    (conn : Option DBConn) (queries : List String) : RunOut Unit :=
  match queries with
  | [] => ⟨.ok (), 0, [], conn⟩
  | _ :: _ =>
    match conn with
    | none => ⟨.error (.invalidConn "database connection not valid"), 0, [], none⟩
    | some c =>
      match c.baseConn with
      | none => ⟨.error (.invalidConn "database connection not valid"), 0, [], some c⟩
      | some _ =>
        let r := ApplyRetryStrategy executeSQLParams (execAttempt env armed queries) ⟨c, 0, []⟩
        ⟨r.1, r.2.2.calls, r.2.2.trace, some r.2.2.conn⟩

/-- Modelled from the spec: the external collaborators of `createConns` —
`conn.GetDownstreamDB` (obtain the shared base handle from the target
config) and `BaseDB.GetBaseConn` (the k-th fresh underlying handle request,
indexed by call order), plus the composite behaviour of the recovery
capability (`ForceCloseConn` then `GetBaseConn` on the shared handle). -/
structure CreateEnv where
  downstreamDB : Except Err BaseDB
  baseConnAt : Nat → Except Err BaseConn
  resetFresh : BaseDB → Option BaseConn → Except Err BaseConn

/-- The `resetBaseConnFn` closure built per connection in `createConns`:
force-close the old handle (best-effort, log-only) and request a new one
from the shared base handle. -/
def mkResetBaseConnFn (env : CreateEnv) (db : BaseDB) :
    Option BaseConn → Except Err BaseConn :=
  fun old => env.resetFresh db old

/-- Observable outcome of `createConns`: the result (base handle plus the
constructed connections, or an error) and whether the base handle was
closed on the way out. -/
structure CreateOut where
  res : Except Err (BaseDB × List DBConn)
  dbClosed : Bool

/-- The construction loop of `createConns` in db.go: for each worker,
request a fresh underlying handle; on failure close the base handle and
return the error wrapped with the downstream scope (no partial pool);
otherwise wrap handle, labels and the recovery capability into a `DBConn`. -/
def createConnsLoop (env : CreateEnv) (db : BaseDB) (name sourceID : String) :
    Nat → Nat → List DBConn → CreateOut
  | _k, 0, acc => ⟨.ok (db, acc), false⟩
  | k, Nat.succ rem, acc =>
    match env.baseConnAt k with
    | .error e => ⟨.error (.withScope .Downstream e), true⟩
    | .ok bc =>
      createConnsLoop env db name sourceID (k + 1) rem
        (acc ++ [{ name := name, sourceID := sourceID, baseConn := some bc,
                   resetBaseConnFn := mkResetBaseConnFn env db }])

/-- `createConns` from db.go: obtain the shared base handle (failure is
wrapped with the downstream scope, nothing to close), then build
`workerCount` connections through the construction loop. -/
def createConns (env : CreateEnv) (name sourceID : String)
    (workerCount : Nat) : CreateOut :=
  match env.downstreamDB with
  | .error e => ⟨.error (.withScope .Downstream e), false⟩
  | .ok db => createConnsLoop env db name sourceID 0 workerCount []

/-- Whether a terminal result is a success. -/
def isOkRes {α : Type} : Except Err α → Bool
  | .ok _ => true
  | .error _ => false

/-- Number of underlying driver calls recorded in a trace. -/
def countDbCalls (tr : List Event) : Nat :=
  tr.countP (fun ev => match ev with | .dbCall => true | _ => false)

/-- Number of execution-error counter increments recorded in a trace. -/
def countExecIncrs (tr : List Event) : Nat :=
  tr.countP (fun ev => match ev with | .execErrIncr _ _ => true | _ => false)

/-- Number of query-latency histogram observations recorded in a trace. -/
def countHistObs (tr : List Event) : Nat :=
  tr.countP (fun ev => match ev with | .histObserve _ _ => true | _ => false)

/-- Every execution-error counter increment in the trace carries exactly
the given (name, sourceID) labels. -/
def incrsLabeled (n s : String) (tr : List Event) : Bool :=
  tr.all (fun ev => match ev with
    | .execErrIncr a b => a == n && b == s
    | _ => true)

/-- Every execution-error counter increment in the trace is immediately
followed by the classification of the failed attempt's error (the increment
happens before classification). -/
def incrBeforeClassify : List Event → Bool
  | [] => true
  | [.execErrIncr _ _] => false
  | .execErrIncr _ _ :: ev :: rest =>
    (match ev with | .classify _ => true | _ => false) && incrBeforeClassify (ev :: rest)
  | _ :: rest => incrBeforeClassify rest

/-! Helper lemmas about the retry loop. -/

/-- One step of the retry loop: a successful attempt stops the loop. -/
theorem retryLoop_ok {α : Type} (params : RetryParams)
    (op : LoaderState → Except Err α × LoaderState) (i fuel : Nat)
    (st st1 : LoaderState) (a : α) (h : op st = (.ok a, st1)) :
    retryLoop params op i (Nat.succ fuel) st = (.ok a, i, st1) := by
  simp [retryLoop, h]

/-- One step of the retry loop: a failed attempt whose error is judged
non-retryable stops the loop with that attempt's error. -/
theorem retryLoop_stop {α : Type} (params : RetryParams)
    (op : LoaderState → Except Err α × LoaderState) (i fuel : Nat)
    (st st1 st2 : LoaderState) (e : Err) (h1 : op st = (.error e, st1))
    (h2 : params.isRetryableFn i e st1 = (false, st2)) :
    retryLoop params op i (Nat.succ fuel) st = (.error e, i, st2) := by
  simp [retryLoop, h1, h2]

/-- One step of the retry loop: a failed attempt judged retryable with no
remaining budget stops the loop with that attempt's error. -/
theorem retryLoop_last {α : Type} (params : RetryParams)
    (op : LoaderState → Except Err α × LoaderState) (i : Nat)
    (st st1 st2 : LoaderState) (e : Err) (h1 : op st = (.error e, st1))
    (h2 : params.isRetryableFn i e st1 = (true, st2)) :
    retryLoop params op i 1 st = (.error e, i, st2) := by
  simp [retryLoop, h1, h2]

/-- One step of the retry loop: a failed attempt judged retryable with
remaining budget waits the backoff delay and retries. -/
theorem retryLoop_retry {α : Type} (params : RetryParams)
    (op : LoaderState → Except Err α × LoaderState) (i fuel : Nat)
    (st st1 st2 : LoaderState) (e : Err) (h1 : op st = (.error e, st1))
    (h2 : params.isRetryableFn i e st1 = (true, st2)) :
    retryLoop params op i (Nat.succ (Nat.succ fuel)) st =
      retryLoop params op (i + 1) (Nat.succ fuel)
        { st2 with trace := st2.trace ++
            [.delay (backoffDuration params.backoffStrategy params.firstRetryDuration i)] } := by
  simp only [retryLoop, h1, h2]
  simp

/-- C5: the retry schedules differ by operation — `querySQL` uses
`maxAttempts = 10`, first delay 1 s and the `Stable` shape, whose
inter-attempt delay is the same constant for every attempt index;
`executeSQL` uses `maxAttempts = 10`, first delay 2 s and the
`LinearIncrease` shape, whose inter-attempt delay is non-decreasing and
grows linearly with the attempt index. -/
theorem retry_schedules_differ :
    querySQLParams.retryCount = 10 ∧
    querySQLParams.firstRetryDuration = 1 ∧
    querySQLParams.backoffStrategy = .Stable ∧
    (∀ i j : Nat,
      backoffDuration querySQLParams.backoffStrategy querySQLParams.firstRetryDuration i =
        backoffDuration querySQLParams.backoffStrategy querySQLParams.firstRetryDuration j) ∧
    executeSQLParams.retryCount = 10 ∧
    executeSQLParams.firstRetryDuration = 2 ∧
    executeSQLParams.backoffStrategy = .LinearIncrease ∧
    (∀ i : Nat,
      backoffDuration executeSQLParams.backoffStrategy executeSQLParams.firstRetryDuration i ≤
        backoffDuration executeSQLParams.backoffStrategy executeSQLParams.firstRetryDuration (i + 1)) ∧
    (∀ i : Nat,
      backoffDuration executeSQLParams.backoffStrategy executeSQLParams.firstRetryDuration i =
        (i + 1) * 2) := by
  refine ⟨rfl, rfl, rfl, fun i j => rfl, rfl, rfl, rfl, fun i => ?_, fun i => rfl⟩
  simp [backoffDuration, executeSQLParams]

/-- C6: `resetConn` is atomic on the connection — a successful recovery
capability swaps exactly the underlying handle (name, sourceID and the
capability itself are untouched, witnessed by the `with`-update), while a
failing capability returns its error and leaves the connection exactly as
it was. -/
theorem resetConn_atomic (conn : DBConn) :
    (∀ bc : BaseConn, conn.resetBaseConnFn conn.baseConn = .ok bc →
        resetConn conn = (.ok (), { conn with baseConn := some bc })) ∧
    (∀ e : Err, conn.resetBaseConnFn conn.baseConn = .error e →
        resetConn conn = (.error e, conn)) := by
  constructor
  · intro bc h
    simp [resetConn, h]
  · intro e h
    simp [resetConn, h]

/-- Witness for `resetConn_atomic` at concrete connections whose recovery
capabilities succeed with handle 9 and fail with `resetFail 3`. -/
theorem resetConn_atomic_witness :
    resetConn ⟨"worker", "src", some ⟨1⟩, fun _ => .ok ⟨9⟩⟩ =
      (.ok (), { (⟨"worker", "src", some ⟨1⟩, fun _ => .ok ⟨9⟩⟩ : DBConn) with
                  baseConn := some ⟨9⟩ }) ∧
    resetConn ⟨"worker", "src", some ⟨1⟩, fun _ => .error (.resetFail 3)⟩ =
      (.error (.resetFail 3),
       ⟨"worker", "src", some ⟨1⟩, fun _ => .error (.resetFail 3)⟩) :=
  ⟨(resetConn_atomic _).1 ⟨9⟩ rfl, (resetConn_atomic _).2 (.resetFail 3) rfl⟩

/-- C7: `executeSQL` on an empty statement list succeeds immediately for
every connection (even a nil one), with zero driver calls, an empty event
trace (so zero metric emissions) and an unchanged connection. -/
theorem executeSQL_empty_noop (env : Nat → Option Err) (armed : Option String)
    (conn : Option DBConn) :
    executeSQL env armed conn [] = ⟨.ok (), 0, [], conn⟩ := rfl

/-- C3 counterexample: `executeSQL` on a nil connection with the empty
statement list does not fail with an invalid-connection error — the
empty-list early return precedes the validity check, so the call succeeds
(with zero driver calls). -/
theorem invalidConn_empty_counterexample :
    (executeSQL (fun _ => none) none none []).res = .ok () ∧
    isOkRes (executeSQL (fun _ => none) none none []).res = true ∧
    (executeSQL (fun _ => none) none none []).calls = 0 :=
  ⟨rfl, rfl, rfl⟩

/-- C3 amended: `querySQL` on a nil connection or a connection with a nil
underlying handle always fails with the invalid-connection error and makes
zero driver calls, for every statement; `executeSQL` does the same for
every non-empty statement list, while the empty statement list succeeds
immediately (still with zero driver calls) because its early return
precedes the validity check. -/
theorem invalidConn_guard :
    (∀ (env : Nat → QueryOutcome) (q : String),
      querySQL env none q =
        ⟨.error (.invalidConn "database connection not valid"), 0, [], none⟩) ∧
    (∀ (env : Nat → QueryOutcome) (n s : String)
        (f : Option BaseConn → Except Err BaseConn) (q : String),
      querySQL env (some ⟨n, s, none, f⟩) q =
        ⟨.error (.invalidConn "database connection not valid"), 0, [],
         some ⟨n, s, none, f⟩⟩) ∧
    (∀ (env : Nat → Option Err) (armed : Option String) (q : String)
        (qs : List String),
      executeSQL env armed none (q :: qs) =
        ⟨.error (.invalidConn "database connection not valid"), 0, [], none⟩) ∧
    (∀ (env : Nat → Option Err) (armed : Option String) (n s : String)
        (f : Option BaseConn → Except Err BaseConn) (q : String)
        (qs : List String),
      executeSQL env armed (some ⟨n, s, none, f⟩) (q :: qs) =
        ⟨.error (.invalidConn "database connection not valid"), 0, [],
         some ⟨n, s, none, f⟩⟩) ∧
    (∀ (env : Nat → Option Err) (armed : Option String) (conn : Option DBConn),
      executeSQL env armed conn [] = ⟨.ok (), 0, [], conn⟩) :=
  ⟨fun env q => rfl, fun env n s f q => rfl, fun env armed q qs => rfl,
   fun env armed n s f q qs => rfl, fun env armed conn => rfl⟩

/-- C9: with the `LoadExecCreateTableFailed` failpoint armed with a numeric
code, an `executeSQL` attempt whose batch is a single statement containing
"CREATE TABLE" fails with a synthetic MySQL error carrying exactly that
code, for every driver outcome; an attempt on a batch of any other shape
behaves exactly as if the failpoint were not armed. -/
theorem exec_failpoint_injection :
    (∀ (val : String) (code : Nat) (env : Nat → Option Err)
        (st : LoaderState) (queries : List String),
      parseUint16 val = some code → singleCreateTable queries = true →
      execAttempt env (some val) queries st =
        (.error (.mysqlError code ""),
         { st with calls := st.calls + 1, trace := st.trace ++ [.dbCall] })) ∧
    (∀ (val : String) (code : Nat) (env : Nat → Option Err)
        (st : LoaderState) (queries : List String),
      parseUint16 val = some code → singleCreateTable queries = false →
      execAttempt env (some val) queries st = execAttempt env none queries st) := by
  constructor
  · intro val code env st queries h1 h2
    simp [execAttempt, applyCreateTableFailpoint, h1, h2]
  · intro val code env st queries h1 h2
    simp [execAttempt, applyCreateTableFailpoint, h1, h2]

/-- Witness for `exec_failpoint_injection`: the failpoint armed with
"1050" turns a single CREATE TABLE statement's attempt into MySQL error
1050 even though the driver would have succeeded, and leaves a two-statement
batch exactly as unarmed. -/
theorem exec_failpoint_injection_witness :
    execAttempt (fun _ => none) (some "1050") ["CREATE TABLE t (a INT)"]
        ⟨⟨"worker", "src", some ⟨1⟩, fun _ => .ok ⟨1⟩⟩, 0, []⟩ =
      (.error (.mysqlError 1050 ""),
       ⟨⟨"worker", "src", some ⟨1⟩, fun _ => .ok ⟨1⟩⟩, 1, [.dbCall]⟩) ∧
    execAttempt (fun _ => none) (some "1050") ["SELECT 1", "SELECT 2"]
        ⟨⟨"worker", "src", some ⟨1⟩, fun _ => .ok ⟨1⟩⟩, 0, []⟩ =
      execAttempt (fun _ => none) none ["SELECT 1", "SELECT 2"]
        ⟨⟨"worker", "src", some ⟨1⟩, fun _ => .ok ⟨1⟩⟩, 0, []⟩ :=
  ⟨exec_failpoint_injection.1 "1050" 1050 (fun _ => none) _ _ rfl rfl,
   exec_failpoint_injection.2 "1050" 1050 (fun _ => none) _ _ rfl rfl⟩

/-- C2 counterexample: first attempt fails as connection-lost (tag 7), the
recovery capability fails with `resetFail 3`; the operation stops after one
attempt but returns the original statement error `connLost 7`, not the
recovery error — `IsRetryableFn` can only answer a boolean, so the reset
error reassigned inside the closure is logged and discarded. -/
theorem reset_failure_counterexample :
    (querySQL (fun _ => .fail (.connLost 7))
        (some ⟨"worker", "src", some ⟨1⟩, fun _ => .error (.resetFail 3)⟩)
        "SELECT 1").res = .error (.connLost 7) ∧
    (querySQL (fun _ => .fail (.connLost 7))
        (some ⟨"worker", "src", some ⟨1⟩, fun _ => .error (.resetFail 3)⟩)
        "SELECT 1").calls = 1 ∧
    (executeSQL (fun _ => some (.connLost 7)) none
        (some ⟨"worker", "src", some ⟨1⟩, fun _ => .error (.resetFail 3)⟩)
        ["INSERT INTO t VALUES (1)"]).res = .error (.connLost 7) ∧
    (executeSQL (fun _ => some (.connLost 7)) none
        (some ⟨"worker", "src", some ⟨1⟩, fun _ => .error (.resetFail 3)⟩)
        ["INSERT INTO t VALUES (1)"]).calls = 1 :=
  ⟨rfl, rfl, rfl, rfl⟩

/-- C2 amended: when an attempt fails with a connection-lost error and the
subsequent recovery fails, the operation does stop immediately (exactly one
driver call), but the error returned to the caller is the original
statement error of that attempt; the recovery error is only logged inside
the retry predicate and cannot reach the caller. -/
theorem reset_failure_returns_original (n s : String) (bc : BaseConn)
    (re : Err) (tag : Nat) (envq : Nat → QueryOutcome)
    (enve : Nat → Option Err) (q : String) (qs : List String) :
    (querySQL (fun k => if k = 0 then .fail (.connLost tag) else envq k)
        (some ⟨n, s, some bc, fun _ => .error re⟩) q).res =
      .error (.connLost tag) ∧
    (querySQL (fun k => if k = 0 then .fail (.connLost tag) else envq k)
        (some ⟨n, s, some bc, fun _ => .error re⟩) q).calls = 1 ∧
    (executeSQL (fun k => if k = 0 then some (.connLost tag) else enve k) none
        (some ⟨n, s, some bc, fun _ => .error re⟩) (q :: qs)).res =
      .error (.connLost tag) ∧
    (executeSQL (fun k => if k = 0 then some (.connLost tag) else enve k) none
        (some ⟨n, s, some bc, fun _ => .error re⟩) (q :: qs)).calls = 1 := by
  have hq := retryLoop_stop querySQLParams
      (queryAttempt (fun k => if k = 0 then .fail (.connLost tag) else envq k)) 0 9
      ⟨⟨n, s, some bc, fun _ => .error re⟩, 0, []⟩
      ⟨⟨n, s, some bc, fun _ => .error re⟩, 1, [.dbCall]⟩
      ⟨⟨n, s, some bc, fun _ => .error re⟩, 1,
        [.dbCall, .classify (.connLost tag), .resetCall]⟩
      (.connLost tag) rfl rfl
  have he := retryLoop_stop executeSQLParams
      (execAttempt (fun k => if k = 0 then some (.connLost tag) else enve k)
        none (q :: qs)) 0 9
      ⟨⟨n, s, some bc, fun _ => .error re⟩, 0, []⟩
      ⟨⟨n, s, some bc, fun _ => .error re⟩, 1, [.dbCall]⟩
      ⟨⟨n, s, some bc, fun _ => .error re⟩, 1,
        [.dbCall, .execErrIncr n s, .classify (.connLost tag), .resetCall]⟩
      (.connLost tag) rfl rfl
  exact ⟨congrArg Prod.fst hq, congrArg (fun x => x.2.2.calls) hq,
         congrArg Prod.fst he, congrArg (fun x => x.2.2.calls) he⟩

/-- When every attempt of `querySQL` fails with a retryable statement
error, the retry loop spends its whole budget: with `fuel + 1` attempts
allowed it makes exactly `fuel + 1` driver calls and returns the error of
the last attempt. -/
theorem retryLoop_exhaust_query (f : Nat → Nat) :
    ∀ (fuel i : Nat) (st : LoaderState),
      ((retryLoop querySQLParams
          (queryAttempt (fun k => .fail (.retryable (f k))))
          i (Nat.succ fuel) st).2.2).calls = st.calls + fuel + 1 ∧
      (retryLoop querySQLParams
          (queryAttempt (fun k => .fail (.retryable (f k))))
          i (Nat.succ fuel) st).1 =
        .error (.retryable (f (st.calls + fuel))) := by
  intro fuel
  induction fuel with
  | zero =>
    intro i st
    have h := retryLoop_last querySQLParams
        (queryAttempt (fun k => .fail (.retryable (f k)))) i st
        { st with calls := st.calls + 1, trace := st.trace ++ [.dbCall] }
        { st with
            calls := st.calls + 1,
            trace := (st.trace ++ [.dbCall]) ++ [.classify (.retryable (f st.calls))] }
        (.retryable (f st.calls)) rfl rfl
    exact ⟨congrArg (fun x => x.2.2.calls) h, congrArg Prod.fst h⟩
  | succ fu ih =>
    intro i st
    have h := retryLoop_retry querySQLParams
        (queryAttempt (fun k => .fail (.retryable (f k)))) i fu st
        { st with calls := st.calls + 1, trace := st.trace ++ [.dbCall] }
        { st with
            calls := st.calls + 1,
            trace := (st.trace ++ [.dbCall]) ++ [.classify (.retryable (f st.calls))] }
        (.retryable (f st.calls)) rfl rfl
    constructor
    · rw [h, (ih (i + 1) _).1]
      dsimp only
      omega
    · rw [h, (ih (i + 1) _).2]
      dsimp only
      rw [show st.calls + 1 + fu = st.calls + (fu + 1) by omega]

/-- When every attempt of `executeSQL` fails with a retryable statement
error, the retry loop spends its whole budget: with `fuel + 1` attempts
allowed it makes exactly `fuel + 1` driver calls and returns the error of
the last attempt. -/
theorem retryLoop_exhaust_exec (f : Nat → Nat) (queries : List String) :
    ∀ (fuel i : Nat) (st : LoaderState),
      ((retryLoop executeSQLParams
          (execAttempt (fun k => some (.retryable (f k))) none queries)
          i (Nat.succ fuel) st).2.2).calls = st.calls + fuel + 1 ∧
      (retryLoop executeSQLParams
          (execAttempt (fun k => some (.retryable (f k))) none queries)
          i (Nat.succ fuel) st).1 =
        .error (.retryable (f (st.calls + fuel))) := by
  intro fuel
  induction fuel with
  | zero =>
    intro i st
    have h := retryLoop_last executeSQLParams
        (execAttempt (fun k => some (.retryable (f k))) none queries) i st
        { st with calls := st.calls + 1, trace := st.trace ++ [.dbCall] }
        { st with
            calls := st.calls + 1,
            trace := ((st.trace ++ [.dbCall]) ++
              [.execErrIncr st.conn.name st.conn.sourceID]) ++
              [.classify (.retryable (f st.calls))] }
        (.retryable (f st.calls)) rfl rfl
    exact ⟨congrArg (fun x => x.2.2.calls) h, congrArg Prod.fst h⟩
  | succ fu ih =>
    intro i st
    have h := retryLoop_retry executeSQLParams
        (execAttempt (fun k => some (.retryable (f k))) none queries) i fu st
        { st with calls := st.calls + 1, trace := st.trace ++ [.dbCall] }
        { st with
            calls := st.calls + 1,
            trace := ((st.trace ++ [.dbCall]) ++
              [.execErrIncr st.conn.name st.conn.sourceID]) ++
              [.classify (.retryable (f st.calls))] }
        (.retryable (f st.calls)) rfl rfl
    constructor
    · rw [h, (ih (i + 1) _).1]
      dsimp only
      omega
    · rw [h, (ih (i + 1) _).2]
      dsimp only
      rw [show st.calls + 1 + fu = st.calls + (fu + 1) by omega]

/-- C4: when every attempt fails with a retryable statement error, both
`querySQL` and `executeSQL` perform exactly `maxAttempts = 10` driver
calls and then fail, returning the error observed on the last (tenth,
index 9) attempt. -/
theorem retry_exhaustion (n s : String) (bc : BaseConn)
    (fn : Option BaseConn → Except Err BaseConn) (f : Nat → Nat)
    (q : String) (qs : List String) :
    (querySQL (fun k => .fail (.retryable (f k)))
        (some ⟨n, s, some bc, fn⟩) q).res = .error (.retryable (f 9)) ∧
    (querySQL (fun k => .fail (.retryable (f k)))
        (some ⟨n, s, some bc, fn⟩) q).calls = 10 ∧
    (executeSQL (fun k => some (.retryable (f k))) none
        (some ⟨n, s, some bc, fn⟩) (q :: qs)).res = .error (.retryable (f 9)) ∧
    (executeSQL (fun k => some (.retryable (f k))) none
        (some ⟨n, s, some bc, fn⟩) (q :: qs)).calls = 10 := by
  have hq := retryLoop_exhaust_query f 9 0 ⟨⟨n, s, some bc, fn⟩, 0, []⟩
  have he := retryLoop_exhaust_exec f (q :: qs) 9 0 ⟨⟨n, s, some bc, fn⟩, 0, []⟩
  exact ⟨hq.2, hq.1, he.2, he.1⟩

/-- Histogram observations count distributes over trace concatenation. -/
theorem countHistObs_append (xs ys : List Event) :
    countHistObs (xs ++ ys) = countHistObs xs + countHistObs ys :=
  List.countP_append _ _ _

/-- The retry predicate of `querySQL` never observes the query-latency
histogram (it only appends classification / reset events). -/
theorem queryIsRetryable_histCount (i : Nat) (e : Err) (st : LoaderState) :
    countHistObs ((queryIsRetryable i e st).2).trace = countHistObs st.trace := by
  unfold queryIsRetryable
  dsimp only
  cases hc : isConnectionError e with
  | false =>
    cases hb : isRetryableError e with
    | false => simp [hc, hb, countHistObs_append, countHistObs]
    | true => simp [hc, hb, countHistObs_append, countHistObs]
  | true =>
    rcases hr : resetConn st.conn with ⟨r, c'⟩
    cases r with
    | error e2 => simp [hc, hr, countHistObs_append, countHistObs]
    | ok u => simp [hc, hr, countHistObs_append, countHistObs]

/-- Across a whole `querySQL` retry loop, the query-latency histogram is
observed exactly once when the run ends in success and never otherwise. -/
theorem retryLoop_query_hist (env : Nat → QueryOutcome) :
    ∀ (fuel i : Nat) (st : LoaderState),
      countHistObs ((retryLoop querySQLParams (queryAttempt env) i fuel st).2.2).trace =
        countHistObs st.trace +
          (if isOkRes (retryLoop querySQLParams (queryAttempt env) i fuel st).1
           then 1 else 0) := by
  intro fuel
  induction fuel with
  | zero =>
    intro i st
    simp [retryLoop, isOkRes]
  | succ fu ih =>
    intro i st
    cases henv : env st.calls with
    | ok rows =>
      have hop : queryAttempt env st =
          (.ok rows,
           { st with
              calls := st.calls + 1,
              trace := (st.trace ++ [.dbCall]) ++
                [.histObserve st.conn.name st.conn.sourceID] }) := by
        simp [queryAttempt, henv]
      rw [retryLoop_ok querySQLParams (queryAttempt env) i fu st _ rows hop]
      simp [countHistObs_append, countHistObs, isOkRes]
    | fail e =>
      have hop : queryAttempt env st =
          (.error e,
           { st with calls := st.calls + 1, trace := st.trace ++ [.dbCall] }) := by
        simp [queryAttempt, henv]
      rcases hfn : querySQLParams.isRetryableFn i e
          { st with calls := st.calls + 1, trace := st.trace ++ [.dbCall] } with ⟨b, st2⟩
      have hcount := queryIsRetryable_histCount i e
          { st with calls := st.calls + 1, trace := st.trace ++ [.dbCall] }
      rw [show (queryIsRetryable i e
          { st with calls := st.calls + 1, trace := st.trace ++ [.dbCall] }) =
          (b, st2) from hfn] at hcount
      dsimp only at hcount
      cases b with
      | false =>
        rw [retryLoop_stop querySQLParams (queryAttempt env) i fu st _ st2 e hop hfn]
        dsimp only [isOkRes]
        rw [hcount]
        simp [countHistObs_append, countHistObs]
      | true =>
        cases fu with
        | zero =>
          rw [retryLoop_last querySQLParams (queryAttempt env) i st _ st2 e hop hfn]
          dsimp only [isOkRes]
          rw [hcount]
          simp [countHistObs_append, countHistObs]
        | succ f2 =>
          rw [retryLoop_retry querySQLParams (queryAttempt env) i f2 st _ st2 e hop hfn]
          rw [ih (i + 1) _]
          dsimp only
          rw [countHistObs_append, hcount]
          simp [countHistObs_append, countHistObs]
    | rowsErr rows e =>
      have hop : queryAttempt env st =
          (.error e,
           { st with calls := st.calls + 1, trace := st.trace ++ [.dbCall] }) := by
        simp [queryAttempt, henv]
      rcases hfn : querySQLParams.isRetryableFn i e
          { st with calls := st.calls + 1, trace := st.trace ++ [.dbCall] } with ⟨b, st2⟩
      have hcount := queryIsRetryable_histCount i e
          { st with calls := st.calls + 1, trace := st.trace ++ [.dbCall] }
      rw [show (queryIsRetryable i e
          { st with calls := st.calls + 1, trace := st.trace ++ [.dbCall] }) =
          (b, st2) from hfn] at hcount
      dsimp only at hcount
      cases b with
      | false =>
        rw [retryLoop_stop querySQLParams (queryAttempt env) i fu st _ st2 e hop hfn]
        dsimp only [isOkRes]
        rw [hcount]
        simp [countHistObs_append, countHistObs]
      | true =>
        cases fu with
        | zero =>
          rw [retryLoop_last querySQLParams (queryAttempt env) i st _ st2 e hop hfn]
          dsimp only [isOkRes]
          rw [hcount]
          simp [countHistObs_append, countHistObs]
        | succ f2 =>
          rw [retryLoop_retry querySQLParams (queryAttempt env) i f2 st _ st2 e hop hfn]
          rw [ih (i + 1) _]
          dsimp only
          rw [countHistObs_append, hcount]
          simp [countHistObs_append, countHistObs]

/-- C10: in `querySQL`, the query-latency histogram is observed exactly on
a clean success (never on a failed run), an attempt whose driver call
succeeds but whose row set carries a deferred error is a failed attempt
carrying that deferred error with no histogram observation, and such an
attempt is fed to classification and can be retried (concrete scenario: a
deferred retryable error on attempt 0 followed by a clean success on
attempt 1 makes the whole query succeed in exactly 2 driver calls). -/
theorem query_deferred_error :
    (∀ (env : Nat → QueryOutcome) (conn : Option DBConn) (q : String),
      countHistObs (querySQL env conn q).trace =
        (if isOkRes (querySQL env conn q).res then 1 else 0)) ∧
    (∀ (env : Nat → QueryOutcome) (st : LoaderState) (rows : Nat) (e : Err),
      queryAttempt (fun k => if k = st.calls then .rowsErr rows e else env k) st =
        (.error e,
         { st with calls := st.calls + 1, trace := st.trace ++ [.dbCall] })) ∧
    (querySQL (fun k => if k = 0 then .rowsErr 5 (.retryable 1) else .ok 7)
        (some ⟨"worker", "src", some ⟨1⟩, fun _ => .ok ⟨2⟩⟩) "SELECT 1").res =
      .ok 7 ∧
    (querySQL (fun k => if k = 0 then .rowsErr 5 (.retryable 1) else .ok 7)
        (some ⟨"worker", "src", some ⟨1⟩, fun _ => .ok ⟨2⟩⟩) "SELECT 1").calls =
      2 := by
  refine ⟨?_, ?_, rfl, rfl⟩
  · intro env conn q
    match conn with
    | none => simp [querySQL, countHistObs, isOkRes]
    | some c =>
      match hbc : c.baseConn with
      | none => simp [querySQL, hbc, countHistObs, isOkRes]
      | some bc =>
        have h := retryLoop_query_hist env querySQLParams.retryCount 0 ⟨c, 0, []⟩
        simp only [querySQL, hbc, ApplyRetryStrategy]
        rw [h]
        simp [countHistObs]
  · intro env st rows e
    simp [queryAttempt]

/-- Driver-call count distributes over trace concatenation. -/
theorem countDbCalls_append (xs ys : List Event) :
    countDbCalls (xs ++ ys) = countDbCalls xs + countDbCalls ys :=
  List.countP_append _ _ _

/-- Counter-increment count distributes over trace concatenation. -/
theorem countExecIncrs_append (xs ys : List Event) :
    countExecIncrs (xs ++ ys) = countExecIncrs xs + countExecIncrs ys :=
  List.countP_append _ _ _

/-- The increment-immediately-classified property is preserved by
concatenation of two traces that each satisfy it. -/
theorem incrBeforeClassify_append (xs ys : List Event)
    (hx : incrBeforeClassify xs = true) (hy : incrBeforeClassify ys = true) :
    incrBeforeClassify (xs ++ ys) = true := by
  induction xs with
  | nil => simpa using hy
  | cons a tail ih =>
    cases a with
    | execErrIncr nm sr =>
      cases tail with
      | nil => simp [incrBeforeClassify] at hx
      | cons b rest =>
        rw [List.cons_append, List.cons_append]
        simp only [incrBeforeClassify, Bool.and_eq_true] at hx ⊢
        exact ⟨hx.1, ih hx.2⟩
    | dbCall =>
      rw [List.cons_append]
      simp only [incrBeforeClassify] at hx ⊢
      exact ih hx
    | classify e =>
      rw [List.cons_append]
      simp only [incrBeforeClassify] at hx ⊢
      exact ih hx
    | resetCall =>
      rw [List.cons_append]
      simp only [incrBeforeClassify] at hx ⊢
      exact ih hx
    | histObserve nm sr =>
      rw [List.cons_append]
      simp only [incrBeforeClassify] at hx ⊢
      exact ih hx
    | delay d =>
      rw [List.cons_append]
      simp only [incrBeforeClassify] at hx ⊢
      exact ih hx

/-- Name and sourceID labels survive `resetConn` (only the handle is
swapped). -/
theorem resetConn_labels (c : DBConn) :
    (resetConn c).2.name = c.name ∧ (resetConn c).2.sourceID = c.sourceID := by
  cases h : c.resetBaseConnFn c.baseConn with
  | error e => simp [resetConn, h]
  | ok bc => simp [resetConn, h]

/-- The retry predicate of `executeSQL` appends exactly one counter
increment labeled with the current connection's (name, sourceID), followed
immediately by the classification event and possibly a reset event; the
connection's labels are unchanged. -/
theorem execIsRetryable_shape (i : Nat) (e : Err) (st : LoaderState) :
    ((execIsRetryable i e st).2.trace =
        st.trace ++ [.execErrIncr st.conn.name st.conn.sourceID, .classify e] ∨
     (execIsRetryable i e st).2.trace =
        st.trace ++ [.execErrIncr st.conn.name st.conn.sourceID, .classify e,
          .resetCall]) ∧
    (execIsRetryable i e st).2.conn.name = st.conn.name ∧
    (execIsRetryable i e st).2.conn.sourceID = st.conn.sourceID := by
  unfold execIsRetryable
  dsimp only
  cases hc : isConnectionError e with
  | false =>
    cases hb : isRetryableError e with
    | false =>
      refine ⟨Or.inl ?_, ?_, ?_⟩ <;> simp [hc, hb]
    | true =>
      refine ⟨Or.inl ?_, ?_, ?_⟩ <;> simp [hc, hb]
  | true =>
    rcases hr : resetConn st.conn with ⟨r, c'⟩
    have hl := resetConn_labels st.conn
    rw [hr] at hl
    cases r with
    | error e2 =>
      refine ⟨Or.inr ?_, hl.1, hl.2⟩
      simp [hr]
    | ok u =>
      refine ⟨Or.inr ?_, hl.1, hl.2⟩
      simp [hr]

/-- Execution-error counter bookkeeping across a whole `executeSQL` retry
loop: writing the run's new events as `delta`, every driver call except a
final successful one is matched by exactly one counter increment, all
increments carry the initial (name, sourceID) labels, every increment is
immediately followed by its classification event, and the connection labels
survive to the final state. -/
theorem retryLoop_exec_metrics (env : Nat → Option Err) (armed : Option String)
    (queries : List String) (n s : String) :
    ∀ (fuel i : Nat) (st : LoaderState),
      st.conn.name = n → st.conn.sourceID = s →
      ∃ delta : List Event,
        ((retryLoop executeSQLParams (execAttempt env armed queries) i fuel st).2.2).trace =
          st.trace ++ delta ∧
        countDbCalls delta =
          countExecIncrs delta +
            (if isOkRes
                (retryLoop executeSQLParams (execAttempt env armed queries) i fuel st).1
             then 1 else 0) ∧
        incrsLabeled n s delta = true ∧
        incrBeforeClassify delta = true ∧
        ((retryLoop executeSQLParams (execAttempt env armed queries) i fuel st).2.2).conn.name
          = n ∧
        ((retryLoop executeSQLParams (execAttempt env armed queries) i fuel st).2.2).conn.sourceID
          = s := by
  intro fuel
  induction fuel with
  | zero =>
    intro i st hn hs
    refine ⟨[], ?_, ?_, ?_, ?_, ?_, ?_⟩ <;>
      simp [retryLoop, isOkRes, countDbCalls, countExecIncrs, incrsLabeled,
        incrBeforeClassify, hn, hs]
  | succ fu ih =>
    intro i st hn hs
    have errCase : ∀ e : Err,
        execAttempt env armed queries st =
          (.error e,
           { st with calls := st.calls + 1, trace := st.trace ++ [.dbCall] }) →
        ∃ delta : List Event,
          ((retryLoop executeSQLParams (execAttempt env armed queries) i
              (Nat.succ fu) st).2.2).trace = st.trace ++ delta ∧
          countDbCalls delta =
            countExecIncrs delta +
              (if isOkRes (retryLoop executeSQLParams (execAttempt env armed queries) i
                  (Nat.succ fu) st).1
               then 1 else 0) ∧
          incrsLabeled n s delta = true ∧
          incrBeforeClassify delta = true ∧
          ((retryLoop executeSQLParams (execAttempt env armed queries) i
              (Nat.succ fu) st).2.2).conn.name = n ∧
          ((retryLoop executeSQLParams (execAttempt env armed queries) i
              (Nat.succ fu) st).2.2).conn.sourceID = s := by
      intro e hop
      rcases hfn : executeSQLParams.isRetryableFn i e
          { st with calls := st.calls + 1, trace := st.trace ++ [.dbCall] } with ⟨b, st2⟩
      have hshape := execIsRetryable_shape i e
          { st with calls := st.calls + 1, trace := st.trace ++ [.dbCall] }
      rw [show execIsRetryable i e
          { st with calls := st.calls + 1, trace := st.trace ++ [.dbCall] } =
          (b, st2) from hfn] at hshape
      dsimp only at hshape
      rw [hn, hs] at hshape
      rcases hshape with ⟨htr, hcn, hcs⟩
      cases b with
      | false =>
        rw [retryLoop_stop executeSQLParams (execAttempt env armed queries)
            i fu st _ st2 e hop hfn]
        rcases htr with htr | htr
        · refine ⟨[.dbCall, .execErrIncr n s, .classify e], ?_, ?_, ?_, ?_, hcn, hcs⟩
          · dsimp only
            rw [htr]
            simp
          · simp [countDbCalls, countExecIncrs, isOkRes, List.countP_cons,
              List.countP_nil]
          · simp [incrsLabeled]
          · simp [incrBeforeClassify]
        · refine ⟨[.dbCall, .execErrIncr n s, .classify e, .resetCall],
            ?_, ?_, ?_, ?_, hcn, hcs⟩
          · dsimp only
            rw [htr]
            simp
          · simp [countDbCalls, countExecIncrs, isOkRes, List.countP_cons,
              List.countP_nil]
          · simp [incrsLabeled]
          · simp [incrBeforeClassify]
      | true =>
        cases fu with
        | zero =>
          rw [retryLoop_last executeSQLParams (execAttempt env armed queries)
              i st _ st2 e hop hfn]
          rcases htr with htr | htr
          · refine ⟨[.dbCall, .execErrIncr n s, .classify e], ?_, ?_, ?_, ?_, hcn, hcs⟩
            · dsimp only
              rw [htr]
              simp
            · simp [countDbCalls, countExecIncrs, isOkRes, List.countP_cons,
                List.countP_nil]
            · simp [incrsLabeled]
            · simp [incrBeforeClassify]
          · refine ⟨[.dbCall, .execErrIncr n s, .classify e, .resetCall],
              ?_, ?_, ?_, ?_, hcn, hcs⟩
            · dsimp only
              rw [htr]
              simp
            · simp [countDbCalls, countExecIncrs, isOkRes, List.countP_cons,
                List.countP_nil]
            · simp [incrsLabeled]
            · simp [incrBeforeClassify]
        | succ f2 =>
          rw [retryLoop_retry executeSQLParams (execAttempt env armed queries)
              i f2 st _ st2 e hop hfn]
          obtain ⟨delta2, htr2, hcnt2, hlab2, hord2, hfn2, hfs2⟩ :=
            ih (i + 1)
              { st2 with trace := st2.trace ++
                  [.delay (backoffDuration executeSQLParams.backoffStrategy
                    executeSQLParams.firstRetryDuration i)] }
              hcn hcs
          dsimp only at htr2
          rcases htr with htr | htr
          · refine ⟨.dbCall :: .execErrIncr n s :: .classify e ::
                .delay (backoffDuration executeSQLParams.backoffStrategy
                  executeSQLParams.firstRetryDuration i) :: delta2,
              ?_, ?_, ?_, ?_, hfn2, hfs2⟩
            · rw [htr2, htr]
              simp
            · simp only [countDbCalls, countExecIncrs, List.countP_cons,
                List.countP_nil, Nat.succ_eq_add_one] at hcnt2 ⊢
              omega
            · simp only [incrsLabeled] at hlab2 ⊢
              simp [List.all_cons, hlab2]
            · exact incrBeforeClassify_append
                [.dbCall, .execErrIncr n s, .classify e,
                  .delay (backoffDuration executeSQLParams.backoffStrategy
                    executeSQLParams.firstRetryDuration i)] delta2 (by rfl) hord2
          · refine ⟨.dbCall :: .execErrIncr n s :: .classify e :: .resetCall ::
                .delay (backoffDuration executeSQLParams.backoffStrategy
                  executeSQLParams.firstRetryDuration i) :: delta2,
              ?_, ?_, ?_, ?_, hfn2, hfs2⟩
            · rw [htr2, htr]
              simp
            · simp only [countDbCalls, countExecIncrs, List.countP_cons,
                List.countP_nil, Nat.succ_eq_add_one] at hcnt2 ⊢
              omega
            · simp only [incrsLabeled] at hlab2 ⊢
              simp [List.all_cons, hlab2]
            · exact incrBeforeClassify_append
                [.dbCall, .execErrIncr n s, .classify e, .resetCall,
                  .delay (backoffDuration executeSQLParams.backoffStrategy
                    executeSQLParams.firstRetryDuration i)] delta2 (by rfl) hord2
    cases hfp : applyCreateTableFailpoint armed queries (env st.calls) with
    | none =>
      exact errCase (.fatalLog "failpoint LoadExecCreateTableFailed value invalid")
        (by simp [execAttempt, hfp])
    | some oe =>
      cases oe with
      | none =>
        have hop : execAttempt env armed queries st =
            (.ok (), { st with calls := st.calls + 1, trace := st.trace ++ [.dbCall] }) := by
          simp [execAttempt, hfp]
        rw [retryLoop_ok executeSQLParams (execAttempt env armed queries) i fu st _ () hop]
        refine ⟨[.dbCall], ?_, ?_, ?_, ?_, hn, hs⟩
        · simp
        · simp [countDbCalls, countExecIncrs, isOkRes, List.countP_cons, List.countP_nil]
        · simp [incrsLabeled]
        · simp [incrBeforeClassify]
      | some e =>
        exact errCase e (by simp [execAttempt, hfp])

/-- C8: over a whole `executeSQL` run on a non-empty batch, the
execution-error counter is incremented exactly once per failed attempt —
every driver call except a final successful one is matched by exactly one
increment — each increment is labeled by the connection's
(name, sourceID), and each increment is recorded immediately before the
failed attempt's error is classified. -/
theorem exec_error_counter (env : Nat → Option Err) (armed : Option String)
    (c : DBConn) (q : String) (qs : List String) :
    countDbCalls (executeSQL env armed (some c) (q :: qs)).trace =
      countExecIncrs (executeSQL env armed (some c) (q :: qs)).trace +
        (if isOkRes (executeSQL env armed (some c) (q :: qs)).res then 1 else 0) ∧
    incrsLabeled c.name c.sourceID (executeSQL env armed (some c) (q :: qs)).trace
      = true ∧
    incrBeforeClassify (executeSQL env armed (some c) (q :: qs)).trace = true := by
  match hbc : c.baseConn with
  | none =>
    refine ⟨?_, ?_, ?_⟩ <;>
      simp [executeSQL, hbc, countDbCalls, countExecIncrs, isOkRes, incrsLabeled,
        incrBeforeClassify]
  | some bc =>
    obtain ⟨delta, htr, hcnt, hlab, hord, hfn2, hfs2⟩ :=
      retryLoop_exec_metrics env armed (q :: qs) c.name c.sourceID
        executeSQLParams.retryCount 0 ⟨c, 0, []⟩ rfl rfl
    refine ⟨?_, ?_, ?_⟩
    · simp only [executeSQL, hbc, ApplyRetryStrategy]
      rw [htr]
      simpa using hcnt
    · simp only [executeSQL, hbc, ApplyRetryStrategy]
      rw [htr]
      simpa using hlab
    · simp only [executeSQL, hbc, ApplyRetryStrategy]
      rw [htr]
      simpa using hord

/-- Invariant of the `createConns` construction loop: a successful run
returns the given base handle and the accumulator extended by fully
initialized connections (correct labels, a live handle, the pool recovery
capability) without closing the base handle; a failing run returns a
downstream-scoped error and closes the base handle. -/
theorem createConnsLoop_spec (env : CreateEnv) (db : BaseDB) (n s : String) :
    ∀ (rem k : Nat) (acc : List DBConn),
      (∀ (db2 : BaseDB) (conns : List DBConn),
        (createConnsLoop env db n s k rem acc).res = .ok (db2, conns) →
        db2 = db ∧ conns.length = acc.length + rem ∧
        (∀ c ∈ conns, c ∈ acc ∨
          (c.name = n ∧ c.sourceID = s ∧ c.baseConn.isSome = true ∧
           c.resetBaseConnFn = mkResetBaseConnFn env db)) ∧
        (createConnsLoop env db n s k rem acc).dbClosed = false) ∧
      (∀ e : Err,
        (createConnsLoop env db n s k rem acc).res = .error e →
        (∃ e2 : Err, e = .withScope .Downstream e2) ∧
        (createConnsLoop env db n s k rem acc).dbClosed = true) := by
  intro rem
  induction rem with
  | zero =>
    intro k acc
    constructor
    · intro db2 conns h
      simp only [createConnsLoop, Except.ok.injEq, Prod.mk.injEq] at h
      refine ⟨h.1.symm, ?_, ?_, rfl⟩
      · rw [← h.2]
        omega
      · intro c hc
        rw [← h.2] at hc
        exact Or.inl hc
    · intro e h
      simp [createConnsLoop] at h
  | succ rm ih =>
    intro k acc
    cases hg : env.baseConnAt k with
    | error e0 =>
      constructor
      · intro db2 conns h
        simp [createConnsLoop, hg] at h
      · intro e h
        simp only [createConnsLoop, hg, Except.error.injEq] at h
        refine ⟨⟨e0, h.symm⟩, ?_⟩
        simp [createConnsLoop, hg]
    | ok bc =>
      have hstep : createConnsLoop env db n s k (Nat.succ rm) acc =
          createConnsLoop env db n s (k + 1) rm
            (acc ++ [{ name := n, sourceID := s, baseConn := some bc,
                       resetBaseConnFn := mkResetBaseConnFn env db }]) := by
        simp [createConnsLoop, hg]
      rw [hstep]
      obtain ⟨ihok, iherr⟩ := ih (k + 1)
        (acc ++ [{ name := n, sourceID := s, baseConn := some bc,
                   resetBaseConnFn := mkResetBaseConnFn env db }])
      constructor
      · intro db2 conns h
        obtain ⟨e1, e2, e3, e4⟩ := ihok db2 conns h
        refine ⟨e1, ?_, ?_, e4⟩
        · rw [e2]
          simp
          omega
        · intro c hc
          rcases e3 c hc with hmem | hnew
          · rcases List.mem_append.mp hmem with h' | h'
            · exact Or.inl h'
            · right
              simp only [List.mem_singleton] at h'
              subst h'
              exact ⟨rfl, rfl, rfl, rfl⟩
          · exact Or.inr hnew
      · exact iherr

/-- C1: for every `workerCount ≥ 1`, pool construction is all-or-nothing —
a successful `createConns` returns the base handle obtained from the target
config together with exactly `workerCount` connections, each carrying the
given labels, a live underlying handle and the pool's recovery capability
bound to that base handle, without closing the base handle; a failing
`createConns` returns a downstream-scoped error, no connections, and closes
the base handle whenever a per-connection construction step failed (that
is, whenever the base handle had been obtained). -/
theorem createConns_all_or_nothing (env : CreateEnv) (n s : String)
    (workerCount : Nat) (hwc : 1 ≤ workerCount) :
    (∀ (db : BaseDB) (conns : List DBConn),
      (createConns env n s workerCount).res = .ok (db, conns) →
      env.downstreamDB = .ok db ∧ conns.length = workerCount ∧
      (∀ c ∈ conns, c.name = n ∧ c.sourceID = s ∧ c.baseConn.isSome = true ∧
        c.resetBaseConnFn = mkResetBaseConnFn env db) ∧
      (createConns env n s workerCount).dbClosed = false) ∧
    (∀ e : Err, (createConns env n s workerCount).res = .error e →
      (∃ e2 : Err, e = .withScope .Downstream e2) ∧
      (∀ db : BaseDB, env.downstreamDB = .ok db →
        (createConns env n s workerCount).dbClosed = true)) := by
  cases hds : env.downstreamDB with
  | error e0 =>
    constructor
    · intro db conns h
      simp [createConns, hds] at h
    · intro e h
      simp only [createConns, hds, Except.error.injEq] at h
      refine ⟨⟨e0, h.symm⟩, ?_⟩
      intro db hdb
      simp at hdb
  | ok db0 =>
    have hl := createConnsLoop_spec env db0 n s workerCount 0 []
    constructor
    · intro db conns h
      have h2 : (createConnsLoop env db0 n s 0 workerCount []).res = .ok (db, conns) := by
        simpa [createConns, hds] using h
      obtain ⟨e1, e2, e3, e4⟩ := hl.1 db conns h2
      subst e1
      refine ⟨rfl, ?_, ?_, ?_⟩
      · simpa using e2
      · intro c hc
        rcases e3 c hc with hin | hp
        · simp at hin
        · exact hp
      · simpa [createConns, hds] using e4
    · intro e h
      have h2 : (createConnsLoop env db0 n s 0 workerCount []).res = .error e := by
        simpa [createConns, hds] using h
      obtain ⟨hsc, hcl⟩ := hl.2 e h2
      refine ⟨hsc, ?_⟩
      intro db hdb
      simpa [createConns, hds] using hcl

/-- Concrete pool-construction environment for the `createConns` witness:
the target config yields base handle 1, the k-th fresh underlying handle
request yields handle k, and recovery requests yield handle 100. -/
def wEnvC1 : CreateEnv := ⟨.ok ⟨1⟩, fun k => .ok ⟨k⟩, fun _ _ => .ok ⟨100⟩⟩

/-- The two connections `createConns wEnvC1 "worker" "src" 2` builds. -/
def wConnsC1 : List DBConn :=
  [⟨"worker", "src", some ⟨0⟩, mkResetBaseConnFn wEnvC1 ⟨1⟩⟩,
   ⟨"worker", "src", some ⟨1⟩, mkResetBaseConnFn wEnvC1 ⟨1⟩⟩]

/-- Witness for `createConns_all_or_nothing` at `workerCount = 2` on a
fully successful environment. -/
theorem createConns_all_or_nothing_witness :
    (1 : Nat) ≤ 2 ∧
    wEnvC1.downstreamDB = .ok ⟨1⟩ ∧
    wConnsC1.length = 2 ∧
    (createConns wEnvC1 "worker" "src" 2).dbClosed = false := by
  have h := (createConns_all_or_nothing wEnvC1 "worker" "src" 2 (by norm_num)).1
    ⟨1⟩ wConnsC1 rfl
  exact ⟨by norm_num, h.1, h.2.1, h.2.2.2⟩
